import Mathlib

/-!
Verification development for src/transcription_pipeline.py.

The file embeds the transcription pipeline as a small-step labelled
transition system.  Each Python thread (the main thread running
TranscriptionPipeline.run, the download worker, the single consumer,
and every spawned transcription thread) is represented by an explicit
program counter; queue.Queue is modelled with its item list, its
unfinished-task counter (used by Queue.join) and its maxsize
(maxsize <= 0 meaning unbounded, exactly as in Python).  An execution
is a list of action labels folded through an executable step function,
so concrete schedules evaluate by rfl/decide while universally
quantified safety properties are proved by induction on the action
list.
-/

namespace TranscriptionPipeline

/-- FileData dataclass (transcription_pipeline.py lines 22-27). -/
structure FileData where
  id : Nat
  name : String
  url : String
deriving DecidableEq, Repr

/-- Python queue.Queue: FIFO item list, the unfinished-task counter
maintained by put/task_done and consulted by join, and maxsize
(maxsize <= 0 means unbounded, as in Python).  Items are
Option FileData, with none playing the role of the terminal
sentinel value None. -/
structure PyQueue where
  items : List (Option FileData)
  unfinished : Nat
  maxsize : Int
deriving DecidableEq, Repr

/-- Queue.put: append and bump the unfinished counter. -/
def PyQueue.put (q : PyQueue) (x : Option FileData) : PyQueue :=
  { q with items := q.items ++ [x], unfinished := q.unfinished + 1 }

/-- Queue.full: true when a positive maxsize is reached (Python
treats maxsize <= 0 as unbounded, never full). -/
def PyQueue.full (q : PyQueue) : Bool :=
  decide (0 < q.maxsize ∧ q.maxsize ≤ (q.items.length : Int))

/-- Queue.task_done: decrement the unfinished counter. -/
def PyQueue.taskDone (q : PyQueue) : PyQueue :=
  { q with unfinished := q.unfinished - 1 }

/-- Program counter of the download_files worker (lines 97-120).
hand f is the point after the simulated download of f and before the
blocking downloaded_queue.put at line 109. -/
inductive DlPC
  | idle
  | blockedGet
  | hand (f : FileData)
  | exited
deriving DecidableEq, Repr

/-- Program counter of the transcribe_consumer worker (lines 122-154).
waitGet is the downloaded_queue.get(timeout=0.1) at line 129,
acquire f the blocking transcription_sema.acquire() at line 133,
spawn f the thread creation/start block at lines 136-142, emptyChk the
queue.Empty handler at lines 145-148 and prune the liveness filter of
active_transcriptions at line 153. -/
inductive CsPC
  | check
  | waitGet
  | acquire (f : FileData)
  | spawn (f : FileData)
  | emptyChk
  | prune
  | exited
deriving DecidableEq, Repr

/-- Program counter of the main thread inside run (lines 187-229).
stopped code is the state after exit(code) in one of the two handlers
at lines 223-229; the process has exited, so no thread steps further. -/
inductive MainPC
  | populate (rest : List FileData)
  | putSentinel
  | joinDQ
  | setShutdown
  | joinDDQ
  | waitActive
  | putSentinel2
  | joinDl
  | joinCs
  | completed
  | stopped (code : Nat)
deriving DecidableEq, Repr

/-- One spawned transcribe_file thread (lines 156-169): the file it
holds, and whether the thread has finished (released its slot). -/
structure Task where
  file : FileData
  done : Bool
deriving DecidableEq, Repr

/-- Whole-pipeline state: the two queues, the counting semaphore value,
the configured transcription_limit, the shutdown event flag, the three
long-lived thread counters, the spawned transcription threads and the
active_transcriptions handle list (indices into tasks). -/
structure PState where
  downloadQueue : PyQueue
  downloadedQueue : PyQueue
  sema : Nat
  limit : Nat
  shutdown : Bool
  dl : DlPC
  cs : CsPC
  tasks : List Task
  active : List Nat
  main : MainPC
deriving DecidableEq, Repr

/-- Thread.is_alive for the handle with index i. -/
def taskAlive (ts : List Task) (i : Nat) : Bool :=
  match ts[i]? with
  | some t => !t.done
  | none => false

/-- Number of transcription threads currently running, that is spawned
and not yet finished. -/
def liveCount : List Task → Nat
  | [] => 0
  | t :: ts => (if t.done then 0 else 1) + liveCount ts

/-- True once the process has called exit() in a run handler. -/
def isStopped : MainPC → Bool
  | .stopped _ => true
  | _ => false

/-- True while the main thread is inside the try block of run
(lines 194-222), where KeyboardInterrupt or Exception can be caught. -/
def inTryBlock : MainPC → Bool
  | .completed => false
  | .stopped _ => false
  | _ => true

/-- Terminal outcome of run (lines 222-229). -/
inductive RunOutcome
  | completed
  | interrupted
  | failed
deriving DecidableEq, Repr

/-- Process exit code produced by run for each outcome, read off
lines 222-229: normal completion returns from run (exit status 0),
the KeyboardInterrupt handler calls exit(0) at line 226, and the
generic Exception handler calls exit(1) at line 229. -/
def runExitCode : RunOutcome → Nat
  | .completed => 0
  | .interrupted => 0
  | .failed => 1

/-- Loop condition of transcribe_consumer at line 127. -/
def csLoopCond (s : PState) : Bool :=
  !s.shutdown || !s.downloadedQueue.items.isEmpty || !s.active.isEmpty

/-- Scheduler action labels, one per atomic step of some thread. -/
inductive Act
  | mainPopulate
  | mainPutSentinel
  | mainJoinDQ
  | mainSetShutdown
  | mainJoinDDQ
  | mainWaitCheck
  | mainPutSentinel2
  | mainJoinDl
  | mainJoinCs
  | mainInterrupt
  | mainCrash
  | dlCheck
  | dlGet
  | dlPush
  | csCheck
  | csGetItem
  | csGetTimeout
  | csEmptyChk
  | csAcquire
  | csSpawnOk
  | csSpawnFail
  | csPrune
  | taskFinishOk (i : Nat)
  | taskFinishErr (i : Nat)
deriving DecidableEq, Repr

/-- One atomic step of the thread selected by the action.  Returns none
when the action is not enabled (the thread is blocked there, the
program counter is elsewhere, or the process has already exited). -/
def stepAux (s : PState) : Act → Option PState
  | .mainPopulate =>
    match s.main with
    | .populate (f :: rest) =>
      some { s with downloadQueue := s.downloadQueue.put (some f), main := .populate rest }
    | _ => none
  | .mainPutSentinel =>
    match s.main with
    | .populate [] =>
      some { s with downloadQueue := s.downloadQueue.put none, main := .joinDQ }
    | _ => none
  | .mainJoinDQ =>
    match s.main with
    | .joinDQ =>
      if s.downloadQueue.unfinished = 0 then some { s with main := .setShutdown } else none
    | _ => none
  | .mainSetShutdown =>
    match s.main with
    | .setShutdown => some { s with shutdown := true, main := .joinDDQ }
    | _ => none
  | .mainJoinDDQ =>
    match s.main with
    | .joinDDQ =>
      if s.downloadedQueue.unfinished = 0 then some { s with main := .waitActive } else none
    | _ => none
  | .mainWaitCheck =>
    match s.main with
    | .waitActive =>
      if (s.active.filter (taskAlive s.tasks)).isEmpty then
        some { s with active := s.active.filter (taskAlive s.tasks), main := .putSentinel2 }
      else
        some { s with active := s.active.filter (taskAlive s.tasks) }
    | _ => none
  | .mainPutSentinel2 =>
    match s.main with
    | .putSentinel2 =>
      if s.downloadedQueue.full then none
      else some { s with downloadedQueue := s.downloadedQueue.put none, main := .joinDl }
    | _ => none
  | .mainJoinDl =>
    match s.main, s.dl with
    | .joinDl, .exited => some { s with main := .joinCs }
    | _, _ => none
  | .mainJoinCs =>
    match s.main, s.cs with
    | .joinCs, .exited => some { s with main := .completed }
    | _, _ => none
  | .mainInterrupt =>
    if inTryBlock s.main then
      some { s with shutdown := true, main := .stopped (runExitCode .interrupted) }
    else none
  | .mainCrash =>
    if inTryBlock s.main then
      some { s with main := .stopped (runExitCode .failed) }
    else none
  | .dlCheck =>
    match s.dl with
    | .idle =>
      if s.shutdown then some { s with dl := .exited } else some { s with dl := .blockedGet }
    | _ => none
  | .dlGet =>
    match s.dl, s.downloadQueue.items with
    | .blockedGet, none :: rest =>
      some { s with downloadQueue := { s.downloadQueue.taskDone with items := rest },
                    dl := .exited }
    | .blockedGet, some f :: rest =>
      some { s with downloadQueue := { s.downloadQueue with items := rest }, dl := .hand f }
    | _, _ => none
  | .dlPush =>
    match s.dl with
    | .hand f =>
      if s.downloadedQueue.full then none
      else
        some { s with downloadedQueue := s.downloadedQueue.put (some f),
                      downloadQueue := s.downloadQueue.taskDone, dl := .idle }
    | _ => none
  | .csCheck =>
    match s.cs with
    | .check =>
      if csLoopCond s then some { s with cs := .waitGet } else some { s with cs := .exited }
    | _ => none
  | .csGetItem =>
    match s.cs, s.downloadedQueue.items with
    | .waitGet, none :: rest =>
      some { s with downloadedQueue := { s.downloadedQueue.taskDone with items := rest },
                    cs := .exited }
    | .waitGet, some f :: rest =>
      some { s with downloadedQueue := { s.downloadedQueue with items := rest },
                    cs := .acquire f }
    | _, _ => none
  | .csGetTimeout =>
    match s.cs, s.downloadedQueue.items with
    | .waitGet, [] => some { s with cs := .emptyChk }
    | _, _ => none
  | .csEmptyChk =>
    match s.cs with
    | .emptyChk =>
      if s.shutdown && s.downloadedQueue.items.isEmpty && s.active.isEmpty then
        some { s with cs := .exited }
      else
        some { s with cs := .check }
    | _ => none
  | .csAcquire =>
    match s.cs with
    | .acquire f =>
      if 0 < s.sema then some { s with sema := s.sema - 1, cs := .spawn f } else none
    | _ => none
  | .csSpawnOk =>
    match s.cs with
    | .spawn f =>
      some { s with tasks := s.tasks ++ [⟨f, false⟩],
                    active := s.active ++ [s.tasks.length],
                    downloadedQueue := s.downloadedQueue.taskDone, cs := .prune }
    | _ => none
  | .csSpawnFail =>
    match s.cs with
    | .spawn _ =>
      some { s with downloadedQueue := s.downloadedQueue.taskDone, cs := .prune }
    | _ => none
  | .csPrune =>
    match s.cs with
    | .prune =>
      some { s with active := s.active.filter (taskAlive s.tasks), cs := .check }
    | _ => none
  | .taskFinishOk i =>
    match s.tasks[i]? with
    | some t =>
      if t.done then none
      else some { s with tasks := s.tasks.set i ⟨t.file, true⟩, sema := s.sema + 1 }
    | none => none
  | .taskFinishErr i =>
    match s.tasks[i]? with
    | some t =>
      if t.done then none
      else some { s with tasks := s.tasks.set i ⟨t.file, true⟩, sema := s.sema + 1 }
    | none => none

/-- Step of the whole system: after exit() (daemon threads are killed
with the process, run never resumes) no action is enabled. -/
def step (s : PState) (a : Act) : Option PState :=
  if isStopped s.main then none else stepAux s a

/-- Run a whole schedule, failing if any listed action is not enabled. -/
def runActs (s : PState) : List Act → Option PState
  | [] => some s
  | a :: rest =>
    match step s a with
    | some s' => runActs s' rest
    | none => none

/-- State at the start of run (lines 194-205): both queues as built by
init at lines 76-77 (download_queue unbounded, downloaded_queue
bounded by download_queue_size), the semaphore at transcription_limit
(line 75), the shutdown event clear (line 78), the download and
consumer threads started (lines 202-203), no transcription threads,
and the main thread about to populate the download queue. -/
def mkState (limit : Nat) (size : Int) (files : List FileData) : PState :=
  { downloadQueue := ⟨[], 0, 0⟩
    downloadedQueue := ⟨[], 0, size⟩
    sema := limit
    limit := limit
    shutdown := false
    dl := .idle
    cs := .check
    tasks := []
    active := []
    main := .populate files }

/-- TranscriptionPipeline.init (lines 57-78).  The constructor performs
no validation of its own; the only failure is the ValueError raised by
threading.Semaphore when transcription_limit is negative.  A
download_queue_size below 1 is accepted and, per Python queue
semantics, simply makes downloaded_queue unbounded. -/
def initPipeline (transcriptionLimit : Int) (downloadQueueSize : Int)
    (files : List FileData) : Except String PState :=
  if transcriptionLimit < 0 then
    .error "ValueError: semaphore initial value must be >= 0"
  else
    .ok (mkState transcriptionLimit.toNat downloadQueueSize files)

/-- Kinds of blocking wait used at the queue boundaries of the pipeline. -/
inductive WaitKind
  | bare
  | timed
deriving DecidableEq, Repr

/-- Wait used by the Work Queue pop, line 102: self.download_queue.get()
with no timeout argument, a bare infinite block. -/
def downloadQueueGetWait : WaitKind := .bare

/-- Wait used by the Bounded Stage Buffer push, line 109:
self.downloaded_queue.put(file_data) with no timeout, a bare block. -/
def downloadedQueuePutWait : WaitKind := .bare

/-- Wait used by the Bounded Stage Buffer pop, line 129:
self.downloaded_queue.get(timeout=0.1), a timed wait whose timeout
returns control to the loop where the shutdown flag is consulted. -/
def downloadedQueueGetWait : WaitKind := .timed

/-- One if the consumer currently holds an acquired-but-unspawned
semaphore slot (between acquire at line 133 and the thread start at
line 141), else zero. -/
def csSlot : CsPC → Nat
  | .spawn _ => 1
  | _ => 0

/-- One if the consumer holds an item popped from downloaded_queue
whose transcription thread has not started yet, else zero. -/
def csHold : CsPC → Nat
  | .acquire _ => 1
  | .spawn _ => 1
  | _ => 0

/-- One if the download worker holds a downloaded item it has not yet
pushed into downloaded_queue, else zero. -/
def dlHold : DlPC → Nat
  | .hand _ => 1
  | _ => 0

/-- Number of real (non-sentinel) items in a queue content list. -/
def countSome : List (Option FileData) → Nat
  | [] => 0
  | none :: l => countSome l
  | some _ :: l => 1 + countSome l

/-- True for the main-thread program points after download_queue.join
at line 208 has returned. -/
def mainPastJoinDQ : MainPC → Bool
  | .setShutdown | .joinDDQ | .waitActive | .putSentinel2
  | .joinDl | .joinCs | .completed => true
  | _ => false

/-- True for the main-thread program points after downloaded_queue.join
at line 210 has returned. -/
def mainPastJoinDDQ : MainPC → Bool
  | .waitActive | .putSentinel2 | .joinDl | .joinCs | .completed => true
  | _ => false

/-- True for the main-thread program points after the
active_transcriptions drain loop at lines 212-215 has finished. -/
def mainPastWait : MainPC → Bool
  | .putSentinel2 | .joinDl | .joinCs | .completed => true
  | _ => false

/-- True for the main-thread program points after download_thread.join
at line 219 has returned. -/
def mainPastJoinDl : MainPC → Bool
  | .joinCs | .completed => true
  | _ => false

structure Inv (L : Nat) (N : Int) (s : PState) : Prop where
  limitEq : s.limit = L
  capEq : s.downloadedQueue.maxsize = N
  semaBound : s.sema + csSlot s.cs + liveCount s.tasks ≤ L
  dqAcct : s.downloadQueue.unfinished = s.downloadQueue.items.length + dlHold s.dl
  ddqAcct : s.downloadedQueue.unfinished = s.downloadedQueue.items.length + csHold s.cs
  ddqCap : 0 < s.downloadedQueue.maxsize →
    (s.downloadedQueue.items.length : Int) ≤ s.downloadedQueue.maxsize
  postJoinDQ : mainPastJoinDQ s.main = true → s.downloadQueue.unfinished = 0
  postJoinDDQ : mainPastJoinDDQ s.main = true →
    countSome s.downloadedQueue.items = 0 ∧ csHold s.cs = 0
  postWait : mainPastWait s.main = true → liveCount s.tasks = 0
  aliveActive : ∀ i, taskAlive s.tasks i = true → i ∈ s.active
  dlExitAfter : mainPastJoinDl s.main = true → s.dl = .exited
  csExitAtEnd : s.main = .completed → s.cs = .exited

def listOcc : List FileData → FileData → Nat
  | [], _ => 0
  | g :: l, f => (if g = f then 1 else 0) + listOcc l f

def optOcc : List (Option FileData) → FileData → Nat
  | [], _ => 0
  | none :: l, f => optOcc l f
  | some g :: l, f => (if g = f then 1 else 0) + optOcc l f

def pendOcc : MainPC → FileData → Nat
  | .populate rest, f => listOcc rest f
  | _, _ => 0

def dlOcc : DlPC → FileData → Nat
  | .hand g, f => if g = f then 1 else 0
  | _, _ => 0

def csOcc : CsPC → FileData → Nat
  | .acquire g, f => if g = f then 1 else 0
  | .spawn g, f => if g = f then 1 else 0
  | _, _ => 0

def taskOcc : List Task → FileData → Nat
  | [], _ => 0
  | t :: ts, f => (if t.file = f then 1 else 0) + taskOcc ts f

/-- Number of occurrences of the work item f anywhere in the pipeline:
still to be enqueued by the main thread, in the download queue, in the
download worker hand, in the downloaded queue, in the consumer hand,
or held by a spawned transcription thread (finished or not). -/
def occState (s : PState) (f : FileData) : Nat :=
  pendOcc s.main f + optOcc s.downloadQueue.items f + dlOcc s.dl f +
    optOcc s.downloadedQueue.items f + csOcc s.cs f + taskOcc s.tasks f

/-- Actions that can discard a work item: the consumer exception path
at lines 149-151 (spawn failure) and a process exit from the two
handlers at lines 223-229. -/
def dropsItems : Act → Bool
  | .csSpawnFail => true
  | .mainInterrupt => true
  | .mainCrash => true
  | _ => false

/-- Fetched-but-unprocessed backlog: real items sitting in
downloaded_queue, plus the item the download worker has downloaded but
not yet pushed (line 109), plus the item the consumer has popped but
whose transcription thread has not started yet (lines 129-141). -/
def backlog (s : PState) : Nat :=
  countSome s.downloadedQueue.items + dlHold s.dl + csHold s.cs

/-- No thread of the process can take any further step. -/
def stuck (s : PState) : Prop := ∀ a : Act, step s a = none

/-- Sample work items used for concrete executions. -/
def fA : FileData := ⟨1, "a", "u"⟩

def fB : FileData := ⟨2, "b", "u"⟩

def fC : FileData := ⟨3, "c", "u"⟩

/-- Schedule: one file is downloaded and its transcription thread
spawned, then KeyboardInterrupt hits the main thread while the
transcription is still running. -/
def c1Trace : List Act :=
  [.mainPopulate, .mainPutSentinel, .dlCheck, .dlGet, .dlPush,
   .csCheck, .csGetItem, .csAcquire, .csSpawnOk, .mainInterrupt]

/-- State after c1Trace: process exited with code 0 while the
transcription thread of fA is still alive. -/
def c1St : PState :=
  ⟨⟨[none], 1, 0⟩, ⟨[], 0, 1⟩, 0, 1, true, .idle, .prune,
   [⟨fA, false⟩], [0], .stopped 0⟩

/-- Schedule: empty input, the download worker dequeues the sentinel. -/
def c3Trace : List Act := [.mainPutSentinel, .dlCheck, .dlGet]

/-- State just before the download worker dequeues the sentinel. -/
def c3PreSt : PState :=
  ⟨⟨[none], 1, 0⟩, ⟨[], 0, 10⟩, 3, 3, false, .blockedGet, .check, [], [], .joinDQ⟩

/-- State after c3Trace: the download worker has exited and
downloaded_queue is still completely empty. -/
def c3St : PState :=
  ⟨⟨[], 0, 0⟩, ⟨[], 0, 10⟩, 3, 3, false, .exited, .check, [], [], .joinDQ⟩

/-- A state with the main thread at the downloaded_queue.put(None) of
line 217, after the drain wait. -/
def c3USt : PState :=
  ⟨⟨[], 0, 0⟩, ⟨[], 0, 10⟩, 3, 3, true, .exited, .check, [], [], .putSentinel2⟩

/-- State after the main thread has pushed the sentinel of line 217. -/
def c3UStAfter : PState :=
  ⟨⟨[], 0, 0⟩, ⟨[none], 1, 10⟩, 3, 3, true, .exited, .check, [], [], .joinDl⟩

/-- Schedule with transcription_limit 1 and download_queue_size 1 over
three files: fA is being transcribed, the consumer holds fB blocked on
the semaphore, and fC sits in the downloaded queue. -/
def c5Trace : List Act :=
  [.mainPopulate, .mainPopulate, .mainPopulate, .mainPutSentinel,
   .dlCheck, .dlGet, .dlPush,
   .csCheck, .csGetItem, .csAcquire, .csSpawnOk, .csPrune,
   .dlCheck, .dlGet, .dlPush,
   .csCheck, .csGetItem,
   .dlCheck, .dlGet, .dlPush]

/-- State after c5Trace: two downloaded files (fB in the consumer hand,
fC in the buffer) wait for transcription although the buffer capacity
is 1. -/
def c5St : PState :=
  ⟨⟨[none], 1, 0⟩, ⟨[some fC], 2, 1⟩, 0, 1, false, .idle, .acquire fB,
   [⟨fA, false⟩], [0], .joinDQ⟩

/-- Schedule in which thread creation/start raises after the semaphore
slot was acquired (consumer handler lines 149-151). -/
def c8Trace : List Act :=
  [.mainPopulate, .dlCheck, .dlGet, .dlPush,
   .csCheck, .csGetItem, .csAcquire, .csSpawnFail, .csPrune]

/-- State after c8Trace: no transcription thread exists, the consumer
holds nothing, yet the semaphore value is 0 instead of the limit 1. -/
def c8St : PState :=
  ⟨⟨[], 0, 0⟩, ⟨[], 0, 1⟩, 0, 1, false, .idle, .check, [], [], .populate []⟩

/-- Happy-path prefix for one file: downloaded, spawned, not finished. -/
def c4PreTrace : List Act :=
  [.mainPopulate, .mainPutSentinel, .dlCheck, .dlGet, .dlPush,
   .dlCheck, .dlGet,
   .csCheck, .csGetItem, .csAcquire, .csSpawnOk, .csPrune]

/-- State after c4PreTrace: the transcription thread of fA is live. -/
def c4PreSt : PState :=
  ⟨⟨[], 0, 0⟩, ⟨[], 0, 1⟩, 0, 1, false, .exited, .check,
   [⟨fA, false⟩], [0], .joinDQ⟩

/-- State right after the transcription thread of fA finishes. -/
def c4PostFin : PState :=
  ⟨⟨[], 0, 0⟩, ⟨[], 0, 1⟩, 1, 1, false, .exited, .check,
   [⟨fA, true⟩], [0], .joinDQ⟩

/-- Complete happy-path schedule for one file through run. -/
def c4Trace : List Act :=
  c4PreTrace ++
  [.taskFinishOk 0,
   .mainJoinDQ, .mainSetShutdown, .mainJoinDDQ, .mainWaitCheck,
   .mainPutSentinel2, .mainJoinDl,
   .csCheck, .csGetItem, .mainJoinCs]

/-- Terminal state of c4Trace: run completed, fA transcribed once. -/
def c4St : PState :=
  ⟨⟨[], 0, 0⟩, ⟨[], 0, 1⟩, 1, 1, true, .exited, .exited,
   [⟨fA, true⟩], [], .completed⟩

/-- Schedule: immediate KeyboardInterrupt at the start of run. -/
def c6Trace : List Act := [.mainInterrupt]

/-- State after c6Trace: exit code 0 although the run was interrupted. -/
def c6St : PState :=
  ⟨⟨[], 0, 0⟩, ⟨[], 0, 10⟩, 3, 3, true, .idle, .check, [], [], .stopped 0⟩

/-- State after an internal failure in run (exit(1) at line 229). -/
def c6CrashSt : PState :=
  ⟨⟨[], 0, 0⟩, ⟨[], 0, 10⟩, 3, 3, false, .idle, .check, [], [], .stopped 1⟩

/-- A state in which the shutdown event is set while the download
worker sits inside the bare download_queue.get() of line 102 with the
queue empty: no download-worker action is enabled. -/
def c9StuckSt : PState :=
  ⟨⟨[], 0, 0⟩, ⟨[], 0, 10⟩, 3, 3, true, .blockedGet, .check, [], [], .joinDQ⟩

/-- A state in which the shutdown event is set while the consumer sits
in the timed downloaded_queue.get(timeout=0.1) of line 129 with the
buffer empty. -/
def c9TimedSt : PState :=
  ⟨⟨[], 0, 0⟩, ⟨[], 0, 10⟩, 3, 3, true, .exited, .waitGet, [], [], .joinDl⟩

/-- Complete schedule for the empty input list, with the default
configuration (transcription_limit 3, download_queue_size 10). -/
def c10Trace : List Act :=
  [.mainPutSentinel, .dlCheck, .dlGet,
   .mainJoinDQ, .mainSetShutdown, .mainJoinDDQ, .mainWaitCheck,
   .mainPutSentinel2, .mainJoinDl,
   .csCheck, .csGetItem, .mainJoinCs]

/-- Terminal state of c10Trace: normal completion, no thread spawned. -/
def c10St : PState :=
  ⟨⟨[], 0, 0⟩, ⟨[], 0, 10⟩, 3, 3, true, .exited, .exited, [], [], .completed⟩


theorem pastDDQ_pastDQ (m : MainPC) (h : mainPastJoinDDQ m = true) :
    mainPastJoinDQ m = true := by
  cases m <;> simp_all [mainPastJoinDQ, mainPastJoinDDQ]

theorem pastWait_pastDDQ (m : MainPC) (h : mainPastWait m = true) :
    mainPastJoinDDQ m = true := by
  cases m <;> simp_all [mainPastJoinDDQ, mainPastWait]

theorem liveCount_append_new (ts : List Task) (f : FileData) :
    liveCount (ts ++ [⟨f, false⟩]) = liveCount ts + 1 := by
  induction ts with
  | nil => simp [liveCount]
  | cons t ts ih =>
    show liveCount (t :: (ts ++ [⟨f, false⟩])) = liveCount (t :: ts) + 1
    simp only [liveCount, ih]
    omega

theorem liveCount_set_done (ts : List Task) (i : Nat) (t : Task)
    (h : ts[i]? = some t) (hd : t.done = false) (g : FileData) :
    liveCount (ts.set i ⟨g, true⟩) + 1 = liveCount ts := by
  induction ts generalizing i with
  | nil => simp at h
  | cons u ts ih =>
    cases i with
    | zero =>
      simp only [List.getElem?_cons_zero, Option.some.injEq] at h
      subst h
      simp only [List.set_cons_zero, liveCount, hd]
      simp
      omega
    | succ n =>
      simp only [List.getElem?_cons_succ] at h
      simp only [List.set_cons_succ, liveCount]
      have := ih n h
      omega

theorem liveCount_pos_of_alive (ts : List Task) (i : Nat)
    (h : taskAlive ts i = true) : 0 < liveCount ts := by
  induction ts generalizing i with
  | nil => simp [taskAlive] at h
  | cons u ts ih =>
    cases i with
    | zero =>
      simp only [taskAlive, List.getElem?_cons_zero] at h
      simp at h
      simp only [liveCount, h]
      simp
    | succ n =>
      simp only [taskAlive, List.getElem?_cons_succ] at h
      have := ih n h
      simp only [liveCount]
      omega

theorem exists_alive_of_liveCount_pos (ts : List Task)
    (h : 0 < liveCount ts) : ∃ i, taskAlive ts i = true := by
  induction ts with
  | nil => simp [liveCount] at h
  | cons u ts ih =>
    cases hu : u.done with
    | false =>
      exact ⟨0, by simp [taskAlive, hu]⟩
    | true =>
      simp only [liveCount, hu, if_true, Nat.zero_add] at h
      obtain ⟨i, hi⟩ := ih h
      exact ⟨i + 1, by simpa [taskAlive] using hi⟩

theorem taskAlive_of_set (ts : List Task) (i j : Nat) (v : Task)
    (hv : v.done = true) (h : taskAlive (ts.set i v) j = true) :
    taskAlive ts j = true := by
  induction ts generalizing i j with
  | nil => simp [taskAlive] at h
  | cons u ts ih =>
    cases i with
    | zero =>
      cases j with
      | zero => simp [taskAlive, hv] at h
      | succ m => simpa [taskAlive] using h
    | succ n =>
      cases j with
      | zero => simpa [taskAlive] using h
      | succ m =>
        simp only [List.set_cons_succ, taskAlive, List.getElem?_cons_succ] at h ⊢
        exact ih n m h

theorem taskAlive_append_elim (ts : List Task) (u : Task) (j : Nat)
    (h : taskAlive (ts ++ [u]) j = true) :
    taskAlive ts j = true ∨ j = ts.length := by
  induction ts generalizing j with
  | nil =>
    cases j with
    | zero => right; rfl
    | succ m => simp [taskAlive] at h
  | cons t ts ih =>
    cases j with
    | zero => left; simpa [taskAlive] using h
    | succ m =>
      simp only [List.cons_append, taskAlive, List.getElem?_cons_succ] at h
      rcases ih m h with h' | h'
      · left; simpa [taskAlive] using h'
      · right; simp [h', List.length_cons]

theorem countSome_append (l1 l2 : List (Option FileData)) :
    countSome (l1 ++ l2) = countSome l1 + countSome l2 := by
  induction l1 with
  | nil => simp [countSome]
  | cons x l1 ih =>
    cases x with
    | none =>
      show countSome (none :: (l1 ++ l2)) = countSome (none :: l1) + countSome l2
      simp only [countSome, ih]
    | some g =>
      show countSome (some g :: (l1 ++ l2)) = countSome (some g :: l1) + countSome l2
      simp only [countSome, ih]
      omega

theorem countSome_le_length (l : List (Option FileData)) :
    countSome l ≤ l.length := by
  induction l with
  | nil => simp [countSome]
  | cons x l ih =>
    cases x <;> simp only [countSome, List.length_cons] <;> omega

theorem inv_step (L : Nat) (N : Int) (s s' : PState) (a : Act)
    (hInv : Inv L N s) (h : step s a = some s') : Inv L N s' := by
  obtain ⟨hLim, hCap, hSema, hDq, hDdq, hCapB, hPJ, hPD, hPW, hAA, hDE, hCE⟩ := hInv
  unfold step at h
  by_cases hst : isStopped s.main = true
  · rw [if_pos hst] at h; exact Option.noConfusion h
  rw [if_neg hst] at h
  cases a with
  | mainPopulate =>
    simp only [stepAux] at h
    split at h
    · rename_i f rest heq
      simp only [Option.some.injEq] at h
      subst h
      refine ⟨hLim, hCap, hSema, ?_, hDdq, hCapB, ?_, ?_, ?_, hAA, ?_, ?_⟩
      · simp only [PyQueue.put, List.length_append, List.length_cons, List.length_nil]
        omega
      · simp [mainPastJoinDQ]
      · simp [mainPastJoinDDQ]
      · simp [mainPastWait]
      · simp [mainPastJoinDl]
      · simp
    · exact Option.noConfusion h
  | mainPutSentinel =>
    simp only [stepAux] at h
    split at h
    · rename_i heq
      simp only [Option.some.injEq] at h
      subst h
      refine ⟨hLim, hCap, hSema, ?_, hDdq, hCapB, ?_, ?_, ?_, hAA, ?_, ?_⟩
      · simp only [PyQueue.put, List.length_append, List.length_cons, List.length_nil]
        omega
      · simp [mainPastJoinDQ]
      · simp [mainPastJoinDDQ]
      · simp [mainPastWait]
      · simp [mainPastJoinDl]
      · simp
    · exact Option.noConfusion h
  | mainJoinDQ =>
    simp only [stepAux] at h
    split at h
    · rename_i heq
      split at h
      · rename_i h0
        simp only [Option.some.injEq] at h
        subst h
        refine ⟨hLim, hCap, hSema, hDq, hDdq, hCapB, fun _ => h0, ?_, ?_, hAA, ?_, ?_⟩
        · simp [mainPastJoinDDQ]
        · simp [mainPastWait]
        · simp [mainPastJoinDl]
        · simp
      · exact Option.noConfusion h
    · exact Option.noConfusion h
  | mainSetShutdown =>
    simp only [stepAux] at h
    split at h
    · rename_i heq
      simp only [Option.some.injEq] at h
      subst h
      refine ⟨hLim, hCap, hSema, hDq, hDdq, hCapB, ?_, ?_, ?_, hAA, ?_, ?_⟩
      · exact fun _ => hPJ (by rw [heq]; rfl)
      · simp [mainPastJoinDDQ]
      · simp [mainPastWait]
      · simp [mainPastJoinDl]
      · simp
    · exact Option.noConfusion h
  | mainJoinDDQ =>
    simp only [stepAux] at h
    split at h
    · rename_i heq
      split at h
      · rename_i h0
        simp only [Option.some.injEq] at h
        subst h
        refine ⟨hLim, hCap, hSema, hDq, hDdq, hCapB, ?_, ?_, ?_, hAA, ?_, ?_⟩
        · exact fun _ => hPJ (by rw [heq]; rfl)
        · refine fun _ => ⟨?_, ?_⟩ <;>
            (dsimp only; have h1 := countSome_le_length s.downloadedQueue.items; omega)
        · simp [mainPastWait]
        · simp [mainPastJoinDl]
        · simp
      · exact Option.noConfusion h
    · exact Option.noConfusion h
  | mainWaitCheck =>
    simp only [stepAux] at h
    split at h
    · rename_i heq
      split at h
      · rename_i hEmp
        simp only [Option.some.injEq] at h
        subst h
        refine ⟨hLim, hCap, hSema, hDq, hDdq, hCapB, ?_, ?_, ?_, ?_, ?_, ?_⟩
        · exact fun _ => hPJ (by rw [heq]; rfl)
        · exact fun _ => hPD (by rw [heq]; rfl)
        · intro _
          by_contra hne
          obtain ⟨i, hi⟩ := exists_alive_of_liveCount_pos _ (Nat.pos_of_ne_zero hne)
          have hmem := List.mem_filter.2 ⟨hAA i hi, hi⟩
          have hemp2 : s.active.filter (taskAlive s.tasks) = [] := by simpa using hEmp
          rw [hemp2] at hmem
          simp at hmem
        · intro i hi
          exact List.mem_filter.2 ⟨hAA i hi, hi⟩
        · simp [mainPastJoinDl]
        · simp
      · simp only [Option.some.injEq] at h
        subst h
        refine ⟨hLim, hCap, hSema, hDq, hDdq, hCapB, hPJ, hPD, hPW, ?_, hDE, hCE⟩
        intro i hi
        exact List.mem_filter.2 ⟨hAA i hi, hi⟩
    · exact Option.noConfusion h
  | mainPutSentinel2 =>
    simp only [stepAux] at h
    split at h
    · rename_i heq
      split at h
      · exact Option.noConfusion h
      · rename_i hnf
        simp only [Option.some.injEq] at h
        subst h
        refine ⟨hLim, hCap, hSema, hDq, ?_, ?_, ?_, ?_, ?_, hAA, ?_, ?_⟩
        · simp only [PyQueue.put, List.length_append, List.length_cons, List.length_nil]
          simp only [csHold] at hDdq ⊢
          omega
        · intro hpos
          simp only [PyQueue.full, decide_eq_true_eq, not_and, not_le] at hnf
          simp only [PyQueue.put, List.length_append, List.length_cons, List.length_nil] at hpos ⊢
          have := hnf hpos
          push_cast
          omega
        · exact fun _ => hPJ (by rw [heq]; rfl)
        · intro _
          have h8 := hPD (by rw [heq]; rfl)
          refine ⟨?_, h8.2⟩
          simp only [PyQueue.put, countSome_append]
          simp [countSome, h8.1]
        · exact fun _ => hPW (by rw [heq]; rfl)
        · simp [mainPastJoinDl]
        · simp
    · exact Option.noConfusion h
  | mainJoinDl =>
    simp only [stepAux] at h
    split at h
    · rename_i heq1 heq2
      simp only [Option.some.injEq] at h
      subst h
      refine ⟨hLim, hCap, hSema, hDq, hDdq, hCapB, ?_, ?_, ?_, hAA, ?_, ?_⟩
      · exact fun _ => hPJ (by rw [heq1]; rfl)
      · exact fun _ => hPD (by rw [heq1]; rfl)
      · exact fun _ => hPW (by rw [heq1]; rfl)
      · exact fun _ => heq2
      · simp
    · exact Option.noConfusion h
  | mainJoinCs =>
    simp only [stepAux] at h
    split at h
    · rename_i heq1 heq2
      simp only [Option.some.injEq] at h
      subst h
      refine ⟨hLim, hCap, hSema, hDq, hDdq, hCapB, ?_, ?_, ?_, hAA, ?_, ?_⟩
      · exact fun _ => hPJ (by rw [heq1]; rfl)
      · exact fun _ => hPD (by rw [heq1]; rfl)
      · exact fun _ => hPW (by rw [heq1]; rfl)
      · exact fun _ => hDE (by rw [heq1]; rfl)
      · exact fun _ => heq2
    · exact Option.noConfusion h
  | mainInterrupt =>
    simp only [stepAux] at h
    split at h
    · simp only [Option.some.injEq] at h
      subst h
      refine ⟨hLim, hCap, hSema, hDq, hDdq, hCapB, ?_, ?_, ?_, hAA, ?_, ?_⟩
      · simp [mainPastJoinDQ, runExitCode]
      · simp [mainPastJoinDDQ, runExitCode]
      · simp [mainPastWait, runExitCode]
      · simp [mainPastJoinDl, runExitCode]
      · simp [runExitCode]
    · exact Option.noConfusion h
  | mainCrash =>
    simp only [stepAux] at h
    split at h
    · simp only [Option.some.injEq] at h
      subst h
      refine ⟨hLim, hCap, hSema, hDq, hDdq, hCapB, ?_, ?_, ?_, hAA, ?_, ?_⟩
      · simp [mainPastJoinDQ, runExitCode]
      · simp [mainPastJoinDDQ, runExitCode]
      · simp [mainPastWait, runExitCode]
      · simp [mainPastJoinDl, runExitCode]
      · simp [runExitCode]
    · exact Option.noConfusion h
  | dlCheck =>
    simp only [stepAux] at h
    split at h
    · rename_i heq
      split at h <;> simp only [Option.some.injEq] at h <;> subst h
      · refine ⟨hLim, hCap, hSema, ?_, hDdq, hCapB, hPJ, hPD, hPW, hAA, ?_, hCE⟩
        · rw [heq] at hDq
          simpa [dlHold] using hDq
        · intro _; rfl
      · refine ⟨hLim, hCap, hSema, ?_, hDdq, hCapB, hPJ, hPD, hPW, hAA, ?_, hCE⟩
        · rw [heq] at hDq
          simpa [dlHold] using hDq
        · intro hx
          have hq := hDE hx
          rw [heq] at hq
          exact absurd hq (by simp)
    · exact Option.noConfusion h
  | dlGet =>
    simp only [stepAux] at h
    split at h
    · rename_i rest heq1 heq2
      simp only [Option.some.injEq] at h
      subst h
      rw [heq1] at hDq
      rw [heq2] at hDq
      simp only [dlHold, List.length_cons] at hDq
      refine ⟨hLim, hCap, hSema, ?_, hDdq, hCapB, ?_, hPD, hPW, hAA, ?_, hCE⟩
      · simp only [PyQueue.taskDone, dlHold]
        omega
      · intro hx
        have h0 := hPJ hx
        simp only [PyQueue.taskDone]
        omega
      · intro _; rfl
    · rename_i f rest heq1 heq2
      simp only [Option.some.injEq] at h
      subst h
      rw [heq1] at hDq
      rw [heq2] at hDq
      simp only [dlHold, List.length_cons] at hDq
      refine ⟨hLim, hCap, hSema, ?_, hDdq, hCapB, ?_, hPD, hPW, hAA, ?_, hCE⟩
      · simp only [dlHold]
        omega
      · intro hx
        have h0 := hPJ hx
        omega
      · intro hx
        have hq := hDE hx
        rw [heq1] at hq
        exact absurd hq (by simp)
    · exact Option.noConfusion h
  | dlPush =>
    simp only [stepAux] at h
    split at h
    · rename_i f heq
      split at h
      · exact Option.noConfusion h
      · rename_i hnf
        simp only [Option.some.injEq] at h
        subst h
        rw [heq] at hDq
        simp only [dlHold] at hDq
        refine ⟨hLim, hCap, hSema, ?_, ?_, ?_, ?_, ?_, hPW, hAA, ?_, hCE⟩
        · simp only [PyQueue.taskDone, dlHold]
          omega
        · simp only [PyQueue.put, List.length_append, List.length_cons, List.length_nil]
          omega
        · intro hpos
          simp only [PyQueue.full, decide_eq_true_eq, not_and, not_le] at hnf
          simp only [PyQueue.put, List.length_append, List.length_cons, List.length_nil] at hpos ⊢
          have := hnf hpos
          push_cast
          omega
        · intro hx
          have h0 := hPJ hx
          simp only [PyQueue.taskDone]
          omega
        · intro hx
          have h0 := hPJ (pastDDQ_pastDQ _ hx)
          omega
        · intro hx
          have hq := hDE hx
          rw [heq] at hq
          exact absurd hq (by simp)
    · exact Option.noConfusion h
  | csCheck =>
    simp only [stepAux] at h
    split at h
    · rename_i heq
      split at h <;> simp only [Option.some.injEq] at h <;> subst h
      · rw [heq] at hSema hDdq
        refine ⟨hLim, hCap, ?_, hDq, ?_, hCapB, hPJ, ?_, hPW, hAA, hDE, ?_⟩
        · simpa [csSlot] using hSema
        · simpa [csHold] using hDdq
        · intro hx
          exact ⟨(hPD hx).1, by simp [csHold]⟩
        · intro hx
          have hq := hCE hx
          rw [heq] at hq
          exact absurd hq (by simp)
      · rw [heq] at hSema hDdq
        refine ⟨hLim, hCap, ?_, hDq, ?_, hCapB, hPJ, ?_, hPW, hAA, hDE, ?_⟩
        · simpa [csSlot] using hSema
        · simpa [csHold] using hDdq
        · intro hx
          exact ⟨(hPD hx).1, by simp [csHold]⟩
        · intro _; rfl
    · exact Option.noConfusion h
  | csGetItem =>
    simp only [stepAux] at h
    split at h
    · rename_i rest heq1 heq2
      simp only [Option.some.injEq] at h
      subst h
      rw [heq1] at hSema hDdq
      rw [heq2] at hDdq
      simp only [csHold, csSlot, List.length_cons] at hSema hDdq
      refine ⟨hLim, hCap, ?_, hDq, ?_, ?_, hPJ, ?_, hPW, hAA, hDE, ?_⟩
      · simpa [csSlot] using hSema
      · simp only [PyQueue.taskDone, csHold]
        omega
      · intro hpos
        dsimp only [PyQueue.taskDone] at hpos ⊢
        have h6 := hCapB hpos
        rw [heq2] at h6
        simp only [List.length_cons] at h6
        push_cast at h6 ⊢
        omega
      · intro hx
        have h8 := hPD hx
        rw [heq2] at h8
        have h81 := h8.1
        simp only [countSome] at h81
        exact ⟨h81, by simp [csHold]⟩
      · intro _; rfl
    · rename_i f rest heq1 heq2
      simp only [Option.some.injEq] at h
      subst h
      rw [heq1] at hSema hDdq
      rw [heq2] at hDdq
      simp only [csHold, csSlot, List.length_cons] at hSema hDdq
      refine ⟨hLim, hCap, ?_, hDq, ?_, ?_, hPJ, ?_, hPW, hAA, hDE, ?_⟩
      · simpa [csSlot] using hSema
      · simp only [csHold]
        omega
      · intro hpos
        dsimp only [PyQueue.taskDone] at hpos ⊢
        have h6 := hCapB hpos
        rw [heq2] at h6
        simp only [List.length_cons] at h6
        push_cast at h6 ⊢
        omega
      · intro hx
        exfalso
        have h8 := (hPD hx).1
        rw [heq2] at h8
        simp only [countSome] at h8
        omega
      · intro hx
        have hq := hCE hx
        rw [heq1] at hq
        exact absurd hq (by simp)
    · exact Option.noConfusion h
  | csGetTimeout =>
    simp only [stepAux] at h
    split at h
    · rename_i heq1 heq2
      simp only [Option.some.injEq] at h
      subst h
      rw [heq1] at hSema hDdq
      refine ⟨hLim, hCap, ?_, hDq, ?_, hCapB, hPJ, ?_, hPW, hAA, hDE, ?_⟩
      · simpa [csSlot] using hSema
      · simpa [csHold] using hDdq
      · intro hx
        exact ⟨(hPD hx).1, by simp [csHold]⟩
      · intro hx
        have hq := hCE hx
        rw [heq1] at hq
        exact absurd hq (by simp)
    · exact Option.noConfusion h
  | csEmptyChk =>
    simp only [stepAux] at h
    split at h
    · rename_i heq
      split at h <;> simp only [Option.some.injEq] at h <;> subst h
      · rw [heq] at hSema hDdq
        refine ⟨hLim, hCap, ?_, hDq, ?_, hCapB, hPJ, ?_, hPW, hAA, hDE, ?_⟩
        · simpa [csSlot] using hSema
        · simpa [csHold] using hDdq
        · intro hx
          exact ⟨(hPD hx).1, by simp [csHold]⟩
        · intro _; rfl
      · rw [heq] at hSema hDdq
        refine ⟨hLim, hCap, ?_, hDq, ?_, hCapB, hPJ, ?_, hPW, hAA, hDE, ?_⟩
        · simpa [csSlot] using hSema
        · simpa [csHold] using hDdq
        · intro hx
          exact ⟨(hPD hx).1, by simp [csHold]⟩
        · intro hx
          have hq := hCE hx
          rw [heq] at hq
          exact absurd hq (by simp)
    · exact Option.noConfusion h
  | csAcquire =>
    simp only [stepAux] at h
    split at h
    · rename_i f heq
      split at h
      · rename_i h0
        simp only [Option.some.injEq] at h
        subst h
        rw [heq] at hSema hDdq
        simp only [csSlot, csHold] at hSema hDdq
        refine ⟨hLim, hCap, ?_, hDq, ?_, hCapB, hPJ, ?_, hPW, hAA, hDE, ?_⟩
        · simp only [csSlot]
          omega
        · simp only [csHold]
          omega
        · intro hx
          exfalso
          have h8 := (hPD hx).2
          rw [heq] at h8
          simp [csHold] at h8
        · intro hx
          have hq := hCE hx
          rw [heq] at hq
          exact absurd hq (by simp)
      · exact Option.noConfusion h
    · exact Option.noConfusion h
  | csSpawnOk =>
    simp only [stepAux] at h
    split at h
    · rename_i f heq
      simp only [Option.some.injEq] at h
      subst h
      rw [heq] at hSema hDdq
      simp only [csSlot, csHold] at hSema hDdq
      refine ⟨hLim, hCap, ?_, hDq, ?_, hCapB, hPJ, ?_, ?_, ?_, hDE, ?_⟩
      · rw [liveCount_append_new]
        simp only [csSlot]
        omega
      · simp only [PyQueue.taskDone, csHold]
        omega
      · intro hx
        exfalso
        have h8 := (hPD hx).2
        rw [heq] at h8
        simp [csHold] at h8
      · intro hx
        exfalso
        have h8 := (hPD (pastWait_pastDDQ _ hx)).2
        rw [heq] at h8
        simp [csHold] at h8
      · intro j hj
        rcases taskAlive_append_elim _ _ _ hj with h' | h'
        · exact List.mem_append.2 (Or.inl (hAA j h'))
        · subst h'
          exact List.mem_append.2 (Or.inr (by simp))
      · intro hx
        have hq := hCE hx
        rw [heq] at hq
        exact absurd hq (by simp)
    · exact Option.noConfusion h
  | csSpawnFail =>
    simp only [stepAux] at h
    split at h
    · rename_i f heq
      simp only [Option.some.injEq] at h
      subst h
      rw [heq] at hSema hDdq
      simp only [csSlot, csHold] at hSema hDdq
      refine ⟨hLim, hCap, ?_, hDq, ?_, hCapB, hPJ, ?_, hPW, hAA, hDE, ?_⟩
      · simp only [csSlot]
        omega
      · simp only [PyQueue.taskDone, csHold]
        omega
      · intro hx
        exfalso
        have h8 := (hPD hx).2
        rw [heq] at h8
        simp [csHold] at h8
      · intro hx
        have hq := hCE hx
        rw [heq] at hq
        exact absurd hq (by simp)
    · exact Option.noConfusion h
  | csPrune =>
    simp only [stepAux] at h
    split at h
    · rename_i heq
      simp only [Option.some.injEq] at h
      subst h
      rw [heq] at hSema hDdq
      refine ⟨hLim, hCap, ?_, hDq, ?_, hCapB, hPJ, ?_, hPW, ?_, hDE, ?_⟩
      · simpa [csSlot] using hSema
      · simpa [csHold] using hDdq
      · intro hx
        exact ⟨(hPD hx).1, by simp [csHold]⟩
      · intro i hi
        exact List.mem_filter.2 ⟨hAA i hi, hi⟩
      · intro hx
        have hq := hCE hx
        rw [heq] at hq
        exact absurd hq (by simp)
    · exact Option.noConfusion h
  | taskFinishOk i =>
    simp only [stepAux] at h
    split at h
    · rename_i t heq
      split at h
      · exact Option.noConfusion h
      · rename_i hnd
        simp only [Option.some.injEq] at h
        subst h
        have hd : t.done = false := by simpa using hnd
        have hset := liveCount_set_done s.tasks i t heq hd t.file
        refine ⟨hLim, hCap, ?_, hDq, hDdq, hCapB, hPJ, hPD, ?_, ?_, hDE, hCE⟩
        · dsimp only
          omega
        · intro hx
          have h9 := hPW hx
          have hal : taskAlive s.tasks i = true := by
            simp [taskAlive, heq, hd]
          have := liveCount_pos_of_alive _ _ hal
          omega
        · intro j hj
          exact hAA j (taskAlive_of_set _ _ _ _ rfl hj)
    · exact Option.noConfusion h
  | taskFinishErr i =>
    simp only [stepAux] at h
    split at h
    · rename_i t heq
      split at h
      · exact Option.noConfusion h
      · rename_i hnd
        simp only [Option.some.injEq] at h
        subst h
        have hd : t.done = false := by simpa using hnd
        have hset := liveCount_set_done s.tasks i t heq hd t.file
        refine ⟨hLim, hCap, ?_, hDq, hDdq, hCapB, hPJ, hPD, ?_, ?_, hDE, hCE⟩
        · dsimp only
          omega
        · intro hx
          have h9 := hPW hx
          have hal : taskAlive s.tasks i = true := by
            simp [taskAlive, heq, hd]
          have := liveCount_pos_of_alive _ _ hal
          omega
        · intro j hj
          exact hAA j (taskAlive_of_set _ _ _ _ rfl hj)
    · exact Option.noConfusion h

theorem inv_init (L : Nat) (N : Int) (files : List FileData) :
    Inv L N (mkState L N files) := by
  refine ⟨rfl, rfl, ?_, rfl, rfl, ?_, ?_, ?_, ?_, ?_, ?_, ?_⟩
  · simp [mkState, csSlot, liveCount]
  · intro h
    dsimp only [mkState] at h ⊢
    simp only [List.length_nil]
    omega
  · simp [mkState, mainPastJoinDQ]
  · simp [mkState, mainPastJoinDDQ]
  · simp [mkState, mainPastWait]
  · intro i hi
    simp [mkState, taskAlive] at hi
  · simp [mkState, mainPastJoinDl]
  · simp [mkState]

theorem inv_runActs (L : Nat) (N : Int) (acts : List Act) :
    ∀ (s s' : PState), Inv L N s → runActs s acts = some s' → Inv L N s' := by
  induction acts with
  | nil =>
    intro s s' hInv h
    simp only [runActs, Option.some.injEq] at h
    subst h
    exact hInv
  | cons a rest ih =>
    intro s s' hInv h
    simp only [runActs] at h
    cases hs : step s a with
    | none => rw [hs] at h; exact Option.noConfusion h
    | some s1 =>
      rw [hs] at h
      exact ih s1 s' (inv_step L N s s1 a hInv hs) h

theorem optOcc_append (l1 l2 : List (Option FileData)) (f : FileData) :
    optOcc (l1 ++ l2) f = optOcc l1 f + optOcc l2 f := by
  induction l1 with
  | nil => simp [optOcc]
  | cons x l1 ih =>
    cases x with
    | none =>
      show optOcc (none :: (l1 ++ l2)) f = optOcc (none :: l1) f + optOcc l2 f
      simp only [optOcc, ih]
    | some g =>
      show optOcc (some g :: (l1 ++ l2)) f = optOcc (some g :: l1) f + optOcc l2 f
      simp only [optOcc, ih]
      omega

theorem taskOcc_append (ts : List Task) (u : Task) (f : FileData) :
    taskOcc (ts ++ [u]) f = taskOcc ts f + (if u.file = f then 1 else 0) := by
  induction ts with
  | nil => simp [taskOcc]
  | cons t ts ih =>
    show taskOcc (t :: (ts ++ [u])) f = taskOcc (t :: ts) f + (if u.file = f then 1 else 0)
    simp only [taskOcc, ih]
    omega

theorem taskOcc_set (ts : List Task) (i : Nat) (t : Task) (d : Bool)
    (h : ts[i]? = some t) (f : FileData) :
    taskOcc (ts.set i ⟨t.file, d⟩) f = taskOcc ts f := by
  induction ts generalizing i with
  | nil => simp at h
  | cons u ts ih =>
    cases i with
    | zero =>
      simp only [List.getElem?_cons_zero, Option.some.injEq] at h
      subst h
      simp [taskOcc]
    | succ n =>
      simp only [List.getElem?_cons_succ] at h
      simp only [List.set_cons_succ, taskOcc, ih n h]

theorem optOcc_le_countSome (l : List (Option FileData)) (f : FileData) :
    optOcc l f ≤ countSome l := by
  induction l with
  | nil => simp [optOcc, countSome]
  | cons x l ih =>
    cases x with
    | none => simpa [optOcc, countSome] using ih
    | some g =>
      simp only [optOcc, countSome]
      split <;> omega

theorem occ_step_eq (s s' : PState) (a : Act) (f : FileData)
    (ha : dropsItems a = false) (h : step s a = some s') :
    occState s' f = occState s f := by
  unfold step at h
  by_cases hst : isStopped s.main = true
  · rw [if_pos hst] at h; exact Option.noConfusion h
  rw [if_neg hst] at h
  cases a with
  | mainPopulate =>
    simp only [stepAux] at h
    split at h
    · rename_i g rest heq
      simp only [Option.some.injEq] at h
      subst h
      simp only [occState, heq, pendOcc, listOcc, PyQueue.put, optOcc_append, optOcc]
      omega
    · exact Option.noConfusion h
  | mainPutSentinel =>
    simp only [stepAux] at h
    split at h
    · rename_i heq
      simp only [Option.some.injEq] at h
      subst h
      simp only [occState, heq, pendOcc, listOcc, PyQueue.put, optOcc_append, optOcc]
      omega
    · exact Option.noConfusion h
  | mainJoinDQ =>
    simp only [stepAux] at h
    split at h
    · rename_i heq
      split at h
      · simp only [Option.some.injEq] at h
        subst h
        simp only [occState, heq, pendOcc]
      · exact Option.noConfusion h
    · exact Option.noConfusion h
  | mainSetShutdown =>
    simp only [stepAux] at h
    split at h
    · rename_i heq
      simp only [Option.some.injEq] at h
      subst h
      simp only [occState, heq, pendOcc]
    · exact Option.noConfusion h
  | mainJoinDDQ =>
    simp only [stepAux] at h
    split at h
    · rename_i heq
      split at h
      · simp only [Option.some.injEq] at h
        subst h
        simp only [occState, heq, pendOcc]
      · exact Option.noConfusion h
    · exact Option.noConfusion h
  | mainWaitCheck =>
    simp only [stepAux] at h
    split at h
    · rename_i heq
      split at h <;> simp only [Option.some.injEq] at h <;> subst h <;>
        simp only [occState, heq, pendOcc]
    · exact Option.noConfusion h
  | mainPutSentinel2 =>
    simp only [stepAux] at h
    split at h
    · rename_i heq
      split at h
      · exact Option.noConfusion h
      · simp only [Option.some.injEq] at h
        subst h
        simp only [occState, heq, pendOcc, PyQueue.put, optOcc_append, optOcc]
        omega
    · exact Option.noConfusion h
  | mainJoinDl =>
    simp only [stepAux] at h
    split at h
    · rename_i heq1 heq2
      simp only [Option.some.injEq] at h
      subst h
      simp only [occState, heq1, pendOcc]
    · exact Option.noConfusion h
  | mainJoinCs =>
    simp only [stepAux] at h
    split at h
    · rename_i heq1 heq2
      simp only [Option.some.injEq] at h
      subst h
      simp only [occState, heq1, pendOcc]
    · exact Option.noConfusion h
  | mainInterrupt => simp [dropsItems] at ha
  | mainCrash => simp [dropsItems] at ha
  | dlCheck =>
    simp only [stepAux] at h
    split at h
    · rename_i heq
      split at h <;> simp only [Option.some.injEq] at h <;> subst h <;>
        simp only [occState, heq, dlOcc]
    · exact Option.noConfusion h
  | dlGet =>
    simp only [stepAux] at h
    split at h
    · rename_i rest heq1 heq2
      simp only [Option.some.injEq] at h
      subst h
      simp only [occState, heq1, heq2, dlOcc, optOcc, PyQueue.taskDone]
    · rename_i g rest heq1 heq2
      simp only [Option.some.injEq] at h
      subst h
      simp only [occState, heq1, heq2, dlOcc, optOcc]
      omega
    · exact Option.noConfusion h
  | dlPush =>
    simp only [stepAux] at h
    split at h
    · rename_i g heq
      split at h
      · exact Option.noConfusion h
      · simp only [Option.some.injEq] at h
        subst h
        simp only [occState, heq, dlOcc, PyQueue.put, PyQueue.taskDone, optOcc_append, optOcc]
        omega
    · exact Option.noConfusion h
  | csCheck =>
    simp only [stepAux] at h
    split at h
    · rename_i heq
      split at h <;> simp only [Option.some.injEq] at h <;> subst h <;>
        simp only [occState, heq, csOcc]
    · exact Option.noConfusion h
  | csGetItem =>
    simp only [stepAux] at h
    split at h
    · rename_i rest heq1 heq2
      simp only [Option.some.injEq] at h
      subst h
      simp only [occState, heq1, heq2, csOcc, optOcc, PyQueue.taskDone]
    · rename_i g rest heq1 heq2
      simp only [Option.some.injEq] at h
      subst h
      simp only [occState, heq1, heq2, csOcc, optOcc]
      omega
    · exact Option.noConfusion h
  | csGetTimeout =>
    simp only [stepAux] at h
    split at h
    · rename_i heq1 heq2
      simp only [Option.some.injEq] at h
      subst h
      simp only [occState, heq1, csOcc]
    · exact Option.noConfusion h
  | csEmptyChk =>
    simp only [stepAux] at h
    split at h
    · rename_i heq
      split at h <;> simp only [Option.some.injEq] at h <;> subst h <;>
        simp only [occState, heq, csOcc]
    · exact Option.noConfusion h
  | csAcquire =>
    simp only [stepAux] at h
    split at h
    · rename_i g heq
      split at h
      · simp only [Option.some.injEq] at h
        subst h
        simp only [occState, heq, csOcc]
      · exact Option.noConfusion h
    · exact Option.noConfusion h
  | csSpawnOk =>
    simp only [stepAux] at h
    split at h
    · rename_i g heq
      simp only [Option.some.injEq] at h
      subst h
      simp only [occState, heq, csOcc, taskOcc_append, PyQueue.taskDone]
      omega
    · exact Option.noConfusion h
  | csSpawnFail => simp [dropsItems] at ha
  | csPrune =>
    simp only [stepAux] at h
    split at h
    · rename_i heq
      simp only [Option.some.injEq] at h
      subst h
      simp only [occState, heq, csOcc]
    · exact Option.noConfusion h
  | taskFinishOk i =>
    simp only [stepAux] at h
    split at h
    · rename_i t heq
      split at h
      · exact Option.noConfusion h
      · simp only [Option.some.injEq] at h
        subst h
        simp only [occState, taskOcc_set s.tasks i t true heq]
    · exact Option.noConfusion h
  | taskFinishErr i =>
    simp only [stepAux] at h
    split at h
    · rename_i t heq
      split at h
      · exact Option.noConfusion h
      · simp only [Option.some.injEq] at h
        subst h
        simp only [occState, taskOcc_set s.tasks i t true heq]
    · exact Option.noConfusion h

theorem occ_step_le (s s' : PState) (a : Act) (f : FileData)
    (h : step s a = some s') : occState s' f ≤ occState s f := by
  cases hda : dropsItems a with
  | false => exact Nat.le_of_eq (occ_step_eq s s' a f hda h)
  | true =>
    unfold step at h
    by_cases hst : isStopped s.main = true
    · rw [if_pos hst] at h; exact Option.noConfusion h
    rw [if_neg hst] at h
    cases a with
    | csSpawnFail =>
      simp only [stepAux] at h
      split at h
      · rename_i g heq
        simp only [Option.some.injEq] at h
        subst h
        simp only [occState, heq, csOcc, PyQueue.taskDone]
        split <;> omega
      · exact Option.noConfusion h
    | mainInterrupt =>
      simp only [stepAux] at h
      split at h
      · simp only [Option.some.injEq] at h
        subst h
        simp only [occState, pendOcc]
        omega
      · exact Option.noConfusion h
    | mainCrash =>
      simp only [stepAux] at h
      split at h
      · simp only [Option.some.injEq] at h
        subst h
        simp only [occState, pendOcc]
        omega
      · exact Option.noConfusion h
    | mainPopulate => simp [dropsItems] at hda
    | mainPutSentinel => simp [dropsItems] at hda
    | mainJoinDQ => simp [dropsItems] at hda
    | mainSetShutdown => simp [dropsItems] at hda
    | mainJoinDDQ => simp [dropsItems] at hda
    | mainWaitCheck => simp [dropsItems] at hda
    | mainPutSentinel2 => simp [dropsItems] at hda
    | mainJoinDl => simp [dropsItems] at hda
    | mainJoinCs => simp [dropsItems] at hda
    | dlCheck => simp [dropsItems] at hda
    | dlGet => simp [dropsItems] at hda
    | dlPush => simp [dropsItems] at hda
    | csCheck => simp [dropsItems] at hda
    | csGetItem => simp [dropsItems] at hda
    | csGetTimeout => simp [dropsItems] at hda
    | csEmptyChk => simp [dropsItems] at hda
    | csAcquire => simp [dropsItems] at hda
    | csSpawnOk => simp [dropsItems] at hda
    | csPrune => simp [dropsItems] at hda
    | taskFinishOk i => simp [dropsItems] at hda
    | taskFinishErr i => simp [dropsItems] at hda

theorem occ_runActs_eq (acts : List Act) (f : FileData) :
    ∀ (s s' : PState), (∀ a ∈ acts, dropsItems a = false) →
      runActs s acts = some s' → occState s' f = occState s f := by
  induction acts with
  | nil =>
    intro s s' _ h
    simp only [runActs, Option.some.injEq] at h
    subst h
    rfl
  | cons a rest ih =>
    intro s s' ha h
    simp only [runActs] at h
    cases hs : step s a with
    | none => rw [hs] at h; exact Option.noConfusion h
    | some s1 =>
      rw [hs] at h
      have h1 := occ_step_eq s s1 a f (ha a (List.mem_cons_self a rest)) hs
      have h2 := ih s1 s' (fun b hb => ha b (List.mem_cons_of_mem a hb)) h
      omega

theorem occ_runActs_le (acts : List Act) (f : FileData) :
    ∀ (s s' : PState), runActs s acts = some s' → occState s' f ≤ occState s f := by
  induction acts with
  | nil =>
    intro s s' h
    simp only [runActs, Option.some.injEq] at h
    subst h
    exact Nat.le_refl _
  | cons a rest ih =>
    intro s s' h
    simp only [runActs] at h
    cases hs : step s a with
    | none => rw [hs] at h; exact Option.noConfusion h
    | some s1 =>
      rw [hs] at h
      have h1 := occ_step_le s s1 a f hs
      have h2 := ih s1 s' h
      omega

theorem occ_init (L : Nat) (N : Int) (files : List FileData) (f : FileData) :
    occState (mkState L N files) f = listOcc files f := by
  simp [occState, mkState, pendOcc, optOcc, dlOcc, csOcc, taskOcc]

theorem taskAlive_set_self (ts : List Task) (i : Nat) (t : Task) (g : FileData)
    (h : ts[i]? = some t) :
    taskAlive (ts.set i ⟨g, true⟩) i = false := by
  induction ts generalizing i with
  | nil => simp at h
  | cons u ts ih =>
    cases i with
    | zero => simp [taskAlive]
    | succ n =>
      simp only [List.getElem?_cons_succ] at h
      simp only [List.set_cons_succ, taskAlive, List.getElem?_cons_succ] at ih ⊢
      exact ih n h

theorem step_finish_none_of_dead (u : PState) (j : Nat)
    (h : taskAlive u.tasks j = false) :
    step u (Act.taskFinishOk j) = none ∧ step u (Act.taskFinishErr j) = none := by
  unfold step
  by_cases hst : isStopped u.main = true
  · rw [if_pos hst, if_pos hst]
    exact ⟨rfl, rfl⟩
  rw [if_neg hst, if_neg hst]
  cases hj : u.tasks[j]? with
  | none =>
    constructor <;> simp [stepAux, hj]
  | some t =>
    have htd : t.done = true := by
      simp only [taskAlive, hj] at h
      simpa using h
    constructor <;> simp [stepAux, hj, htd]

/-- Claim C1 (code bug in the source): after cancellation is signaled
mid-run, the pipeline must reach its terminal stopped state only after
every already-dispatched transcription thread has completed.  The
KeyboardInterrupt handler of run (lines 223-226) instead sets the
shutdown event and calls exit(0) at once, killing the daemon
transcription threads: this concrete schedule ends in the stopped
state with the transcription thread of fA still live, and no further
step of any thread is possible. -/
theorem c1_stopped_while_task_live :
    runActs (mkState 1 1 [fA]) c1Trace = some c1St ∧
    isStopped c1St.main = true ∧
    c1St.main = MainPC.stopped 0 ∧
    liveCount c1St.tasks = 1 ∧
    stuck c1St := by
  refine ⟨rfl, rfl, rfl, rfl, ?_⟩
  intro a
  unfold step
  exact if_pos (show isStopped c1St.main = true from rfl)

/-- Claim C2 (confirmed): in every execution and at every instant, the
number of live transcription threads never exceeds the configured
transcription_limit.  The semaphore of line 75, acquired at line 133
before each thread start and released in the finally block at
line 168, enforces the bound. -/
theorem c2_concurrency_bound (L : Nat) (N : Int) (files : List FileData)
    (acts : List Act) (s : PState)
    (h : runActs (mkState L N files) acts = some s) :
    liveCount s.tasks ≤ L := by
  have hInv := inv_runActs L N acts (mkState L N files) s (inv_init L N files) h
  have hb := hInv.semaBound
  omega

theorem c2_witness : liveCount c5St.tasks ≤ 1 :=
  c2_concurrency_bound 1 1 [fA, fB, fC] c5Trace c5St rfl

/-- Claim C3 (counterexample): the claim says the download worker, on
dequeuing the sentinel from download_queue, forwards a sentinel into
downloaded_queue exactly once and then exits.  In the code
(lines 103-105) the worker merely calls task_done and breaks: after
this schedule the worker has exited while downloaded_queue never
received anything. -/
theorem c3_counterexample :
    runActs (mkState 3 10 []) c3Trace = some c3St ∧
    c3St.dl = DlPC.exited ∧
    c3St.downloadedQueue.items = [] ∧
    c3St.downloadedQueue.unfinished = 0 :=
  ⟨rfl, rfl, rfl, rfl⟩

/-- Claim C3 (amended): on dequeuing the sentinel the download worker
marks it done and exits without forwarding anything; the sentinel that
reaches downloaded_queue is pushed exactly once by the coordinator run
at line 217, after the drain wait. -/
theorem c3_sentinel_forwarded_by_run (s s' u u' : PState)
    (rest : List (Option FileData))
    (hdl : s.dl = DlPC.blockedGet)
    (hit : s.downloadQueue.items = none :: rest)
    (h : step s Act.dlGet = some s')
    (hm : u.main = MainPC.putSentinel2)
    (h2 : step u Act.mainPutSentinel2 = some u') :
    s'.dl = DlPC.exited ∧ s'.downloadedQueue = s.downloadedQueue ∧
    u'.downloadedQueue.items = u.downloadedQueue.items ++ [none] ∧
    u'.downloadedQueue.unfinished = u.downloadedQueue.unfinished + 1 := by
  unfold step at h h2
  by_cases hst : isStopped s.main = true
  · rw [if_pos hst] at h; exact Option.noConfusion h
  rw [if_neg hst] at h
  by_cases hst2 : isStopped u.main = true
  · rw [if_pos hst2] at h2; exact Option.noConfusion h2
  rw [if_neg hst2] at h2
  simp only [stepAux, hdl, hit] at h
  simp only [stepAux, hm] at h2
  by_cases hf : u.downloadedQueue.full = true
  · rw [if_pos hf] at h2; exact Option.noConfusion h2
  rw [if_neg hf] at h2
  simp only [Option.some.injEq] at h h2
  subst h
  subst h2
  exact ⟨rfl, rfl, rfl, rfl⟩

theorem c3_witness :
    c3St.dl = DlPC.exited ∧ c3St.downloadedQueue = c3PreSt.downloadedQueue ∧
    c3UStAfter.downloadedQueue.items = c3USt.downloadedQueue.items ++ [none] ∧
    c3UStAfter.downloadedQueue.unfinished = c3USt.downloadedQueue.unfinished + 1 :=
  c3_sentinel_forwarded_by_run c3PreSt c3St c3USt c3UStAfter [] rfl rfl rfl rfl rfl

/-- Claim C4 (counterexample): the claim says each processing task
reports a Result to a Post-Processing Queue on completion, delivered
to a Sink.  In the code, a finishing transcription thread
(lines 156-169) only releases the semaphore and terminates: both
queues of the pipeline are left untouched and no result object is
produced anywhere. -/
theorem c4_counterexample :
    runActs (mkState 1 1 [fA]) c4PreTrace = some c4PreSt ∧
    step c4PreSt (Act.taskFinishOk 0) = some c4PostFin ∧
    c4PostFin.downloadQueue = c4PreSt.downloadQueue ∧
    c4PostFin.downloadedQueue = c4PreSt.downloadedQueue ∧
    c4PostFin.sema = c4PreSt.sema + 1 ∧
    taskOcc c4PostFin.tasks fA = 1 :=
  ⟨rfl, rfl, rfl, rfl, rfl, rfl⟩

/-- Claim C4 (amended): under normal completion with only successful
download and spawn steps, every input item yields exactly one spawned
transcription thread and all of them have finished; completion is
observable only through the thread itself, as the code has no
post-processing queue or sink. -/
theorem c4_no_item_loss (L : Nat) (N : Int) (files : List FileData)
    (acts : List Act) (s : PState)
    (h : runActs (mkState L N files) acts = some s)
    (hok : ∀ a ∈ acts, dropsItems a = false)
    (hc : s.main = MainPC.completed) :
    (∀ f, taskOcc s.tasks f = listOcc files f) ∧ liveCount s.tasks = 0 := by
  have hInv := inv_runActs L N acts (mkState L N files) s (inv_init L N files) h
  constructor
  · intro f
    have hocc := occ_runActs_eq acts f (mkState L N files) s hok h
    rw [occ_init] at hocc
    have h2 : s.downloadQueue.items = [] := by
      have hj := hInv.postJoinDQ (by rw [hc]; rfl)
      have ha := hInv.dqAcct
      have hl : s.downloadQueue.items.length = 0 := by omega
      exact List.length_eq_zero.mp hl
    have h3 : s.dl = DlPC.exited := hInv.dlExitAfter (by rw [hc]; rfl)
    have h4 := (hInv.postJoinDDQ (by rw [hc]; rfl)).1
    have h5 : s.cs = CsPC.exited := hInv.csExitAtEnd hc
    have h6 : optOcc s.downloadedQueue.items f = 0 := by
      have h7 := optOcc_le_countSome s.downloadedQueue.items f
      omega
    unfold occState at hocc
    rw [hc, h2, h3, h5, h6] at hocc
    simp only [pendOcc, optOcc, dlOcc, csOcc] at hocc
    omega
  · exact hInv.postWait (by rw [hc]; rfl)

theorem c4_witness :
    taskOcc c4St.tasks fA = listOcc [fA] fA ∧ liveCount c4St.tasks = 0 := by
  have hthm := c4_no_item_loss 1 1 [fA] c4Trace c4St rfl (by decide) rfl
  exact ⟨hthm.1 fA, hthm.2⟩

/-- Claim C5 (counterexample): the claim says the number of artifacts
downloaded but not yet being transcribed never exceeds
download_queue_size.  With capacity 1 this reachable state holds two
such artifacts: fC in downloaded_queue and fB in the consumer hand
blocked on the semaphore (line 133). -/
theorem c5_counterexample :
    runActs (mkState 1 1 [fA, fB, fC]) c5Trace = some c5St ∧
    c5St.downloadedQueue.maxsize = 1 ∧
    backlog c5St = 2 :=
  ⟨rfl, rfl, rfl⟩

/-- Claim C5 (amended): downloaded_queue itself never holds more than
download_queue_size items, and the fetched-but-unprocessed backlog
(buffer content plus the download-worker hand at the blocking put of
line 109 plus the consumer hand) never exceeds download_queue_size
plus two. -/
theorem c5_backlog_bound (L : Nat) (N : Int) (files : List FileData)
    (acts : List Act) (s : PState)
    (h : runActs (mkState L N files) acts = some s) (hN : 0 < N) :
    (countSome s.downloadedQueue.items : Int) ≤ N ∧
    (backlog s : Int) ≤ N + 2 := by
  have hInv := inv_runActs L N acts (mkState L N files) s (inv_init L N files) h
  have hcap := hInv.capEq
  have hc := hInv.ddqCap (by rw [hcap]; exact hN)
  rw [hcap] at hc
  have h1 := countSome_le_length s.downloadedQueue.items
  have h2 : dlHold s.dl ≤ 1 := by unfold dlHold; split <;> omega
  have h3 : csHold s.cs ≤ 1 := by unfold csHold; split <;> omega
  unfold backlog
  constructor <;> push_cast <;> omega

theorem c5_witness :
    (countSome c5St.downloadedQueue.items : Int) ≤ 1 ∧
    (backlog c5St : Int) ≤ 1 + 2 :=
  c5_backlog_bound 1 1 [fA, fB, fC] c5Trace c5St rfl (by decide)

/-- Claim C6 (counterexample): the claim says an interrupt during
running yields a distinct exit code such as 130.  The handler at
line 226 calls exit(0), the same code as normal completion, so the
interrupted outcome is not distinguishable by exit code. -/
theorem c6_counterexample :
    runExitCode RunOutcome.interrupted = runExitCode RunOutcome.completed ∧
    runExitCode RunOutcome.interrupted = 0 ∧
    runActs (mkState 3 10 []) c6Trace = some c6St ∧
    c6St.main = MainPC.stopped 0 :=
  ⟨rfl, rfl, rfl, rfl⟩

/-- Claim C6 (amended): normal completion exits with code 0, an
interrupt during running also exits with code 0 (exit(0) at line 226,
not distinct from completion), and an internal failure exits with
code 1 (exit(1) at line 229). -/
theorem c6_exit_codes :
    runExitCode RunOutcome.completed = 0 ∧
    runExitCode RunOutcome.interrupted = 0 ∧
    runExitCode RunOutcome.failed = 1 ∧
    step (mkState 3 10 []) Act.mainInterrupt = some c6St ∧
    step (mkState 3 10 []) Act.mainCrash = some c6CrashSt ∧
    c6St.main = MainPC.stopped 0 ∧
    c6CrashSt.main = MainPC.stopped 1 :=
  ⟨rfl, rfl, rfl, rfl, rfl, rfl, rfl⟩

/-- Claim C7 (counterexample): the claim says transcription_limit < 1
or download_queue_size < 1 is rejected at startup and no stage ever
starts.  The constructor (lines 57-78) performs no validation:
transcription_limit 0 and download_queue_size 0 construct
successfully, a download_queue_size below 1 merely makes the buffer
unbounded (Python queue semantics), and the pipeline then runs. -/
theorem c7_counterexample :
    initPipeline 0 0 [fA] = Except.ok (mkState 0 0 [fA]) ∧
    (PyQueue.mk (List.replicate 5 (some fA)) 5 0).full = false ∧
    step (mkState 0 (-1) [fA]) Act.mainPopulate =
      some { mkState 0 (-1) [fA] with
               downloadQueue := PyQueue.mk [some fA] 1 0,
               main := MainPC.populate [] } :=
  ⟨rfl, rfl, rfl⟩

/-- Claim C7 (amended): the constructor performs no validation of its
own; only a negative transcription_limit fails at startup, through the
ValueError raised by threading.Semaphore, while transcription_limit 0
and any download_queue_size are accepted, a non-positive
download_queue_size yielding an unbounded buffer that is never full. -/
theorem c7_no_validation (l n : Int) (files : List FileData) (q : PyQueue)
    (hl : l < 0) (hn : n ≤ 0) (hq : q.maxsize = n) :
    (initPipeline l n files).isOk = false ∧
    (initPipeline 0 n files).isOk = true ∧
    q.full = false := by
  refine ⟨?_, ?_, ?_⟩
  · unfold initPipeline
    rw [if_pos hl]
    rfl
  · unfold initPipeline
    rw [if_neg (by omega)]
    rfl
  · simp only [PyQueue.full, decide_eq_false_iff_not, not_and]
    intro h0
    omega

theorem c7_witness :
    (initPipeline (-1) 0 []).isOk = false ∧
    (initPipeline 0 0 []).isOk = true ∧
    (PyQueue.mk [some fA] 1 0).full = false :=
  c7_no_validation (-1) 0 [] (PyQueue.mk [some fA] 1 0) (by decide) (by decide) rfl

/-- Claim C8 (counterexample): the claim says every acquired semaphore
slot is released exactly once on every exit path, including a failure
of thread creation/start after acquisition.  When the thread start of
lines 136-141 raises, the consumer handler (lines 149-151) calls
task_done but never releases the slot: after this schedule no
transcription thread exists and nothing is held, yet the semaphore is
0 instead of the limit 1 - the slot leaked. -/
theorem c8_counterexample :
    runActs (mkState 1 1 [fA]) c8Trace = some c8St ∧
    c8St.tasks = [] ∧ csSlot c8St.cs = 0 ∧ csHold c8St.cs = 0 ∧
    c8St.sema = 0 ∧ c8St.limit = 1 :=
  ⟨rfl, rfl, rfl, rfl, rfl, rfl⟩

/-- Claim C8 (amended): within transcribe_file itself the release is
exactly paired: a finishing thread, whether its body succeeded or its
exception was caught, releases the slot exactly once (the finally
block of lines 167-169) and a finished thread can never release again;
the unpaired path is only the consumer-side failure between
acquisition and thread start. -/
theorem c8_transcribe_release_paired (s sOk sErr u : PState) (i j : Nat)
    (hOk : step s (Act.taskFinishOk i) = some sOk)
    (hErr : step s (Act.taskFinishErr i) = some sErr)
    (hu : taskAlive u.tasks j = false) :
    sOk.sema = s.sema + 1 ∧ sErr.sema = s.sema + 1 ∧
    taskAlive sOk.tasks i = false ∧ taskAlive sErr.tasks i = false ∧
    step u (Act.taskFinishOk j) = none ∧ step u (Act.taskFinishErr j) = none := by
  have hdead := step_finish_none_of_dead u j hu
  unfold step at hOk hErr
  by_cases hst : isStopped s.main = true
  · rw [if_pos hst] at hOk; exact Option.noConfusion hOk
  rw [if_neg hst] at hOk
  rw [if_neg hst] at hErr
  simp only [stepAux] at hOk hErr
  cases hti : s.tasks[i]? with
  | none =>
    rw [hti] at hOk
    exact Option.noConfusion hOk
  | some t =>
    simp only [hti] at hOk hErr
    by_cases htd : t.done = true
    · rw [if_pos htd] at hOk; exact Option.noConfusion hOk
    rw [if_neg htd] at hOk
    rw [if_neg htd] at hErr
    simp only [Option.some.injEq] at hOk hErr
    subst hOk
    subst hErr
    refine ⟨rfl, rfl, ?_, ?_, hdead.1, hdead.2⟩
    · exact taskAlive_set_self s.tasks i t t.file hti
    · exact taskAlive_set_self s.tasks i t t.file hti

theorem c8_witness :
    c4PostFin.sema = c4PreSt.sema + 1 ∧ c4PostFin.sema = c4PreSt.sema + 1 ∧
    taskAlive c4PostFin.tasks 0 = false ∧ taskAlive c4PostFin.tasks 0 = false ∧
    step c4St (Act.taskFinishOk 0) = none ∧ step c4St (Act.taskFinishErr 0) = none :=
  c8_transcribe_release_paired c4PreSt c4PostFin c4PostFin c4St 0 0 rfl rfl rfl

/-- Claim C9 (counterexample): the claim says every blocking wait of
the pipeline observes the cancellation signal through an
interruptible wait.  The Work Queue pop of line 102 and the buffer
push of line 109 are bare blocking calls with no timeout, and in a
state where the shutdown event is set while the download worker sits
in the bare get with an empty queue, no download-worker action is
enabled at all. -/
theorem c9_counterexample :
    downloadQueueGetWait = WaitKind.bare ∧
    downloadedQueuePutWait = WaitKind.bare ∧
    downloadedQueueGetWait = WaitKind.timed ∧
    c9StuckSt.shutdown = true ∧
    c9StuckSt.dl = DlPC.blockedGet ∧
    c9StuckSt.downloadQueue.items = [] ∧
    step c9StuckSt Act.dlGet = none ∧
    step c9StuckSt Act.dlCheck = none ∧
    step c9StuckSt Act.dlPush = none :=
  ⟨rfl, rfl, rfl, rfl, rfl, rfl, rfl, rfl, rfl⟩

/-- Claim C9 (amended): only the buffer pop of the consumer observes
cancellation: the get with timeout 0.1 of line 129 always wakes when
the buffer is empty, and the subsequent handler (lines 145-148)
consults the shutdown flag and exits the consumer. -/
theorem c9_timed_buffer_pop (s : PState)
    (hcs : s.cs = CsPC.waitGet) (hempty : s.downloadedQueue.items = [])
    (hns : isStopped s.main = false)
    (hsd : s.shutdown = true) (hact : s.active = []) :
    step s Act.csGetTimeout = some { s with cs := CsPC.emptyChk } ∧
    step { s with cs := CsPC.emptyChk } Act.csEmptyChk =
      some { s with cs := CsPC.exited } := by
  constructor
  · unfold step
    rw [if_neg (by simp [hns])]
    simp only [stepAux, hcs, hempty]
  · unfold step
    rw [if_neg (by simp [hns])]
    simp only [stepAux]
    simp [hsd, hempty, hact]

theorem c9_witness :
    step c9TimedSt Act.csGetTimeout = some { c9TimedSt with cs := CsPC.emptyChk } ∧
    step { c9TimedSt with cs := CsPC.emptyChk } Act.csEmptyChk =
      some { c9TimedSt with cs := CsPC.exited } :=
  c9_timed_buffer_pop c9TimedSt rfl rfl rfl rfl rfl

/-- Claim C10 (confirmed): on the empty input list the pipeline
terminates normally under the canonical schedule: only the sentinel
flows through, download worker and consumer both exit, run reports
successful completion with exit status 0, and in every execution from
the empty input no transcription thread is ever spawned. -/
theorem c10_empty_input :
    (runActs (mkState 3 10 []) c10Trace = some c10St ∧
      c10St.main = MainPC.completed ∧ c10St.dl = DlPC.exited ∧
      c10St.cs = CsPC.exited ∧ c10St.tasks = [] ∧
      runExitCode RunOutcome.completed = 0) ∧
    ∀ (L : Nat) (N : Int) (acts : List Act) (s : PState),
      runActs (mkState L N []) acts = some s → s.tasks = [] := by
  constructor
  · exact ⟨rfl, rfl, rfl, rfl, rfl, rfl⟩
  · intro L N acts s h
    cases hts : s.tasks with
    | nil => rfl
    | cons t ts =>
      exfalso
      have hle := occ_runActs_le acts t.file (mkState L N []) s h
      rw [occ_init] at hle
      unfold occState at hle
      rw [hts] at hle
      have h1 : taskOcc (t :: ts) t.file = 1 + taskOcc ts t.file := by
        simp [taskOcc]
      rw [h1] at hle
      simp only [listOcc] at hle
      omega

theorem c10_witness : c10St.tasks = [] :=
  c10_empty_input.2 3 10 c10Trace c10St rfl


end TranscriptionPipeline
